import Mathlib

/-!
Verification of the ExcelFormatter mapping/formula-evaluation core.

This file shallowly embeds the core of `src/core/excel_processor.py` and
`src/core/config_manager.py`:

* `PyObj` models a pandas cell / Python runtime value (int, float, str, bool,
  NaN); floats are modelled exactly as rationals.
* the formula evaluator (`_evaluate_formula`, `_replace_formula_references`,
  `_find_column_value`, `_to_numeric`, `_is_safe_expression`) including the
  two `re.findall` tokenizers, the word-boundary substitution, and a
  recursive-descent evaluator for the substituted expression: Python `eval`
  over the expressions the safety check's character set can form — numeric
  literals with underscore digit separators (and Python's leading-zero
  rule), `+ - * /`, power `**`, floor division `//`, unary signs,
  parentheses, the empty tuple `()`, and `Ellipsis` (`...`);
* the void row filter (`_apply_void_filtering`);
* the column mapper (`apply_mapping`, `_map_column`);
* the header locator (`_find_header_row`);
* the config validator (`validate_config` and helpers) over a JSON-like
  value type.

All recursive functions take explicit fuel so that every definition is a
structural recursion and evaluates by kernel reduction.  Python's `set`
iteration order (unspecified) is modelled as first-occurrence order; only
formulas with at most one effective token are relied upon in proofs.
-/

/-- A Python/pandas runtime value: int, float (modelled exactly by `ℚ`),
string, bool, missing (NaN / None), and the non-numeric values the
restricted `eval` can produce and store in a result column: the empty tuple
`()` and `Ellipsis` (`...`).  `approx` stands for a numeric result whose
exact value lies outside the rational model: a float power with a
non-integer exponent (irrational float, or a complex number for a negative
base); no claim observes such a value. -/
inductive PyObj where
  | int (n : ℤ)
  | float (q : ℚ)
  | str (s : String)
  | bool (b : Bool)
  | none
  | tuple0
  | ellipsis
  | approx
deriving DecidableEq

/-- The rational value carried by a numeric `PyObj` (0 for non-numbers;
used only to state claims about numeric outputs). -/
def PyObj.qval : PyObj → ℚ
  | .int n => (n : ℚ)
  | .float q => q
  | _ => 0

/-- Whether a `PyObj` is a number (int, float, or an out-of-model numeric
`approx`); false for the empty tuple and `Ellipsis`. -/
def PyObj.isNum : PyObj → Bool
  | .int _ => true
  | .float _ => true
  | .approx => true
  | _ => false

/-- Whether a `PyObj` is an int or a float whose exact value the model
tracks. -/
def PyObj.isExactNum : PyObj → Bool
  | .int _ => true
  | .float _ => true
  | _ => false

/- ## Character and string helpers -/

/-- Python `\s` for the ASCII range (also the characters `str.strip` removes). -/
def isSpaceCh (c : Char) : Bool :=
  c == ' ' || c == '\t' || c == '\n' || c == '\r' || c == '\x0b' || c == '\x0c'

/-- Python regex `\w` for the ASCII range: letter, digit or underscore. -/
def isWordCh (c : Char) : Bool := c.isAlpha || c.isDigit || c == '_'

/-- The middle character class `[A-Za-z0-9_\s\-]` of the unquoted-name regex. -/
def isMidCh (c : Char) : Bool := isWordCh c || isSpaceCh c || c == '-'

def toLowerList (l : List Char) : List Char := l.map Char.toLower

/-- `listStartsWith pat l` : does `l` start with `pat`? -/
def listStartsWith : List Char → List Char → Bool
  | [], _ => true
  | _ :: _, [] => false
  | p :: ps, c :: cs => p == c && listStartsWith ps cs

/-- Python's `needle in hay` on strings (empty needle always matches). -/
def hasSub (needle : List Char) : List Char → Bool
  | [] => listStartsWith needle []
  | c :: t => listStartsWith needle (c :: t) || hasSub needle t

/-- Python `str.strip()`: drop ASCII whitespace from both ends. -/
def pyStrip (l : List Char) : List Char :=
  ((l.dropWhile isSpaceCh).reverse.dropWhile isSpaceCh).reverse

def pyStripStr (s : String) : String := String.mk (pyStrip s.toList)

/-- Python `str.replace(pat, rep)`: replace every non-overlapping occurrence
left to right.  Empty patterns do not occur in the modelled code paths
(tokens are non-empty); they are mapped to the identity. -/
def replaceSub (fuel : Nat) (pat rep : List Char) (s : List Char) : List Char :=
  match fuel, s with
  | 0, s => s
  | _ + 1, [] => []
  | fuel + 1, c :: rest =>
    if pat.isEmpty then c :: rest
    else if listStartsWith pat (c :: rest) then
      rep ++ replaceSub fuel pat rep ((c :: rest).drop pat.length)
    else c :: replaceSub fuel pat rep rest

/-- `re.sub(r'\b' + re.escape(w) + r'\b', rep, s)` for a pattern `w` that
starts and ends with word characters (always true for the tokens the code
substitutes this way): replace occurrences of `w` that are delimited by word
boundaries.  `prev` is the character preceding the current position. -/
def wbReplace (fuel : Nat) (w rep : List Char) (prev : Option Char) (s : List Char) :
    List Char :=
  match fuel, s with
  | 0, s => s
  | _ + 1, [] => []
  | fuel + 1, c :: rest =>
    let boundary := match prev with
      | Option.none => true
      | Option.some p => !isWordCh p
    if w.isEmpty then c :: rest
    else if boundary && listStartsWith w (c :: rest) &&
        (match (c :: rest).drop w.length with
         | [] => true
         | d :: _ => !isWordCh d) then
      rep ++ wbReplace fuel w rep (Option.some (w.getLastD c)) ((c :: rest).drop w.length)
    else c :: wbReplace fuel w rep (Option.some c) rest

/- ## Rendering numbers the way Python `str` does -/

def digitCh (d : Nat) : Char := Char.ofNat (48 + d)

def natCharsAux : Nat → Nat → List Char
  | 0, _ => []
  | _ + 1, n =>
    if n < 10 then [digitCh n]
    else natCharsAux n (n / 10) ++ [digitCh (n % 10)]

def natChars (n : Nat) : List Char := natCharsAux (n + 1) n

def intChars (n : ℤ) : List Char :=
  if n < 0 then '-' :: natChars n.natAbs else natChars n.toNat

def natStr (n : Nat) : String := String.mk (natChars n)

/-- Decimal digits of the fractional part `fr` (with `0 ≤ fr < 1`),
emitted until the remainder is zero or fuel runs out.  Python floats always
have a terminating decimal representation; the fuel is never exhausted for
values arising from the modelled programs' claims. -/
def fracDigits : Nat → ℚ → List Char
  | 0, _ => []
  | fuel + 1, fr =>
    if fr = 0 then []
    else
      let x := fr * 10
      let d := (x.num / x.den).toNat
      digitCh d :: fracDigits fuel (x - (d : ℚ))

/-- Python `str` of a float, for floats with terminating decimal expansion
(every actual Python float): sign, integer part, `.`, fractional digits
(`"1.0"`, `"-2.5"`, ...). -/
def floatChars (q : ℚ) : List Char :=
  let a : ℚ := |q|
  let ip : Nat := (a.num / a.den).toNat
  let ds := fracDigits 40 (a - (ip : ℚ))
  (if q < 0 then ['-'] else []) ++ natChars ip ++ '.' :: (if ds.isEmpty then ['0'] else ds)

/-- Python `str(value)` for the values that can appear in a cell or in
`output_data` (`str(()) = "()"`, `str(Ellipsis) = "Ellipsis"`; the
placeholder for `approx` is never reached by a claim). -/
def pyStr : PyObj → List Char
  | .int n => intChars n
  | .float q => floatChars q
  | .str s => s.toList
  | .bool b => if b then "True".toList else "False".toList
  | .none => "nan".toList
  | .tuple0 => "()".toList
  | .ellipsis => "Ellipsis".toList
  | .approx => "?approx".toList

/- ## Parsing strings as numbers -/

/-- Python `float(s)` on a string, restricted to the plain decimal forms
`[ws][±]digits[.digits][ws]` / `[ws][±].digits[ws]` (no exponent or
inf/nan forms, which never occur in the modelled claims).  Returns `none`
when parsing fails (Python raises `ValueError`). -/
def parseFloat (l : List Char) : Option ℚ :=
  let t := pyStrip l
  let (sgn, t) : ℚ × List Char :=
    match t with
    | '-' :: r => (-1, r)
    | '+' :: r => (1, r)
    | r => (1, r)
  let ipart := t.takeWhile Char.isDigit
  let rest := t.drop ipart.length
  let core : Option ℚ :=
    match rest with
    | [] => if ipart.isEmpty then Option.none else
        Option.some ((ipart.foldl (fun a c => a * 10 + (c.toNat - 48)) 0 : Nat) : ℚ)
    | '.' :: fr =>
      let fpart := fr.takeWhile Char.isDigit
      if fr.drop fpart.length ≠ [] then Option.none
      else if ipart.isEmpty && fpart.isEmpty then Option.none
      else
        let ipn : Nat := ipart.foldl (fun a c => a * 10 + (c.toNat - 48)) 0
        let fpn : Nat := fpart.foldl (fun a c => a * 10 + (c.toNat - 48)) 0
        Option.some ((ipn : ℚ) + (fpn : ℚ) / ((10 : ℚ) ^ fpart.length))
    | _ => Option.none
  core.map (sgn * ·)

/-- `ExcelProcessor._to_numeric`: NaN ↦ 0.0, else `float(value)`,
returning 0.0 when the conversion fails.  Also models
`pd.to_numeric(col, errors='coerce').fillna(0)` used by the void filter
(same parse-as-number-else-0 semantics). -/
def toNumeric : PyObj → ℚ
  | .int n => (n : ℚ)
  | .float q => q
  | .bool b => if b then 1 else 0
  | .none => 0
  | .str s => (parseFloat s.toList).getD 0
  | .tuple0 => 0
  | .ellipsis => 0
  | .approx => 0

/- ## Tables -/

/-- A pandas DataFrame: ordered named columns of cells.  `wf` (all columns
share one length) holds for every DataFrame the program builds. -/
structure Table where
  cols : List (String × List PyObj)
deriving DecidableEq

def Table.colNames (t : Table) : List String := t.cols.map Prod.fst

/-- `len(df)`: the common row count (length of the first column). -/
def Table.rowCount (t : Table) : Nat :=
  match t.cols with
  | [] => 0
  | c :: _ => c.2.length

/-- All columns have the common length (pandas invariant). -/
def Table.wf (t : Table) : Prop := ∀ p ∈ t.cols, p.2.length = t.rowCount

instance (t : Table) : Decidable t.wf := by
  unfold Table.wf; infer_instance

/-- Row `i` as the Series `iterrows` yields: column names paired with the
cells of row `i`. -/
def Table.row (t : Table) (i : Nat) : List (String × PyObj) :=
  t.cols.map (fun p => (p.1, p.2.getD i PyObj.none))

/- ## Formula tokenization (`_replace_formula_references`) -/

/-- `re.findall(r'"([^"]+)"', formula)`: the non-empty bodies of quoted
substrings, scanned left to right. -/
def quotedScan (fuel : Nat) : List Char → List (List Char)
  | [] => []
  | c :: rest =>
    match fuel with
    | 0 => []
    | fuel + 1 =>
      if c == '"' then
        let content := rest.takeWhile (fun d => d ≠ '"')
        let after := rest.drop content.length
        match after with
        | '"' :: after' =>
          if content.isEmpty then quotedScan fuel rest
          else content :: quotedScan fuel after'
        | _ => quotedScan fuel rest
      else quotedScan fuel rest

/-- Greedy-with-backtracking end position for a match of
`[A-Za-z][A-Za-z0-9_\s\-]*[A-Za-z0-9_]\b` whose middle/final part lies in the
maximal mid-class run `run`: the largest `j ∈ [1, run.length]` such that
`run[j-1]` is a word character and the position after it is a word boundary.
`none` when no such `j` exists (the regex fails at this start position). -/
def lastGoodEnd (run : List Char) : Option Nat :=
  ((List.range (run.length + 1)).filter (fun j =>
      decide (1 ≤ j) && isWordCh (run.getD (j - 1) '*') &&
        (j == run.length || !isWordCh (run.getD j '*')))).getLast?

/-- `re.findall(r'\b[A-Za-z][A-Za-z0-9_\s\-]*[A-Za-z0-9_]\b', formula)`:
leftmost non-overlapping matches; a match needs a word boundary before a
leading letter, then mid-class characters, ending in a word character
followed by a boundary (so every match has length ≥ 2). -/
def unquotedScan (fuel : Nat) (prev : Option Char) : List Char → List (List Char)
  | [] => []
  | c :: rest =>
    match fuel with
    | 0 => []
    | fuel + 1 =>
      let boundary := match prev with
        | Option.none => true
        | Option.some p => !isWordCh p
      if boundary && c.isAlpha then
        let run := rest.takeWhile isMidCh
        match lastGoodEnd run with
        | Option.some j =>
          (c :: run.take j) :: unquotedScan fuel (Option.some (run.getD (j - 1) c)) (rest.drop j)
        | Option.none => unquotedScan fuel (Option.some c) rest
      else unquotedScan fuel (Option.some c) rest

/-- Order-preserving deduplication; models `list(set(...))` (whose iteration
order Python leaves unspecified) as first-occurrence order. -/
def dedupFirst : List (List Char) → List (List Char)
  | [] => []
  | w :: ws => w :: (dedupFirst ws).filter (fun v => v ≠ w)

/-- The deduplicated candidate tokens of a formula body:
`list(set(quoted_names + unquoted_names))`. -/
def formulaWords (body : List Char) : List (List Char) :=
  dedupFirst (quotedScan (body.length + 1) body ++ unquotedScan (body.length + 1) Option.none body)

/-- The reserved words skipped by the substitution loop. -/
def reservedWords : List (List Char) :=
  ["and", "or", "not", "abs", "sum", "avg", "max", "min"].map String.toList

/- ## Column-value resolution (`_find_column_value`) -/

/-- `_find_column_value`: direct match, then case-insensitive match, then
substring match in either direction (first hit wins); the found cell is
coerced with `_to_numeric`. -/
def findColumnValue (name : List Char) (row : List (String × PyObj)) : Option ℚ :=
  match row.find? (fun p => p.1.toList == name) with
  | Option.some p => Option.some (toNumeric p.2)
  | Option.none =>
    match row.find? (fun p => toLowerList p.1.toList == toLowerList name) with
    | Option.some p => Option.some (toNumeric p.2)
    | Option.none =>
      match row.find? (fun p =>
          hasSub (toLowerList name) (toLowerList p.1.toList) ||
          hasSub (toLowerList p.1.toList) (toLowerList name)) with
      | Option.some p => Option.some (toNumeric p.2)
      | Option.none => Option.none

/-- One stage of a token matching a column name (any of the three stages of
`_find_column_value`); used to state hypotheses "no input column fuzzily
matches this token". -/
def tokenMatches (tok : List Char) (colName : String) : Bool :=
  colName.toList == tok ||
  toLowerList colName.toList == toLowerList tok ||
  hasSub (toLowerList tok) (toLowerList colName.toList) ||
  hasSub (toLowerList colName.toList) (toLowerList tok)

/-- `output_data` during one `apply_mapping` pass: the already-built output
columns, in insertion order. -/
abbrev OutputData := List (String × List PyObj)

/-- The replacement loop body of `_replace_formula_references` for one word:
skip reserved words; resolve against the input row, then against
already-computed output columns (`IndexError` ⇒ unresolved); substitute
`str(value)` by plain replacement for names containing a space or hyphen,
else by word-boundary replacement. -/
def applyWord (row : List (String × PyObj)) (od : OutputData) (idx : Nat)
    (acc : List Char) (word : List Char) : List Char :=
  let wc := pyStrip word
  if reservedWords.contains (toLowerList wc) then acc
  else
    let fromRow : Option PyObj := (findColumnValue wc row).map PyObj.float
    let value : Option PyObj :=
      match fromRow with
      | Option.some v => Option.some v
      | Option.none =>
        match od.find? (fun p => p.1.toList == wc) with
        | Option.some p => if idx < p.2.length then Option.some (p.2.getD idx PyObj.none) else Option.none
        | Option.none => Option.none
    match value with
    | Option.some v =>
      let vs := pyStr v
      if wc.contains ' ' || wc.contains '-' then
        replaceSub (acc.length + 1) wc vs acc
      else
        wbReplace (acc.length + 1) wc vs Option.none acc
    | Option.none => acc

/-- `_replace_formula_references`: substitute every resolved token of the
formula body with its value's textual form. -/
def substituteRefs (body : List Char) (row : List (String × PyObj))
    (od : OutputData) (idx : Nat) : List Char :=
  (formulaWords body).foldl (applyWord row od idx) body

/- ## Safety check (`_is_safe_expression`) -/

/-- The allowed character set `'0123456789+-*/()._ '`. -/
def allowedCh (c : Char) : Bool :=
  c.isDigit || c == '+' || c == '-' || c == '*' || c == '/' || c == '(' ||
  c == ')' || c == '.' || c == '_' || c == ' '

/-- The banned substrings checked case-insensitively. -/
def bannedSubs : List (List Char) :=
  ["import", "exec", "eval", "__", "open", "file"].map String.toList

/-- `_is_safe_expression`: every character allowed, and no banned substring
occurs in the lower-cased expression. -/
def isSafeExpr (e : List Char) : Bool :=
  e.all allowedCh && !(bannedSubs.any (fun b => hasSub b (toLowerList e)))

/- ## Evaluation of the substituted expression (Python `eval` on the
expressions expressible with the safety check's character set) -/

/-- A token of a substituted expression.  Over the allowed characters
`0-9 + - * / ( ) . _ space` Python can form: numeric literals (with
underscore digit separators), `+ - * /`, power `**`, floor division `//`,
parentheses, the empty tuple `()`, and `Ellipsis` (`...`).  Letters are
excluded, so no names, calls with arguments, or non-empty tuples (no
comma) can appear. -/
inductive ATok where
  | num (v : PyObj)
  | plus
  | minus
  | star
  | slash
  | dstar
  | dslash
  | lpar
  | rpar
  | edots
deriving DecidableEq

/-- A numeric-literal span is valid Python: only digits, `_`, `.`; at least
one digit; at most one dot; every underscore strictly between two digits;
and (for an integer literal, i.e. no dot) no leading zero unless every
digit is zero (`0`, `00`, `0_0` are valid, `07` is a `SyntaxError`;
float literals such as `01.5` carry no such restriction). -/
def validNumLit (s : List Char) : Bool :=
  s.any Char.isDigit && decide ((s.filter (fun c => c == '.')).length ≤ 1) &&
  (List.range s.length).all (fun i =>
    !(s.getD i ' ' == '_') ||
      (decide (1 ≤ i) && (s.getD (i - 1) ' ').isDigit && (s.getD (i + 1) ' ').isDigit)) &&
  (!(s.filter (fun c => c == '.')).isEmpty ||
    (let d := s.filter (fun c => c ≠ '_')
     !(d.headD '0' == '0') || d.all (fun c => c == '0')))

def digitsVal (l : List Char) : Nat := l.foldl (fun a c => a * 10 + (c.toNat - 48)) 0

/-- Parse a valid numeric-literal span into a Python number: an int when no
dot is present, else a float. -/
def parseNumLit (s : List Char) : Option PyObj :=
  if validNumLit s then
    let t := s.filter (fun c => c ≠ '_')
    let ip := t.takeWhile Char.isDigit
    match t.drop ip.length with
    | [] => Option.some (PyObj.int (digitsVal ip))
    | '.' :: fr => Option.some (PyObj.float ((digitsVal ip : ℚ) + (digitsVal fr : ℚ) / (10 : ℚ) ^ fr.length))
    | _ => Option.none
  else Option.none

/-- Tokenize a (safety-checked) expression; maximal munch, so `**`, `//`
and `...` are recognized before `*`, `/` and number/dot handling.  `none`
models a `SyntaxError`/`NameError` (e.g. a lone `.` or `_`). -/
def lexExpr (fuel : Nat) : List Char → Option (List ATok)
  | [] => Option.some []
  | c :: rest =>
    match fuel with
    | 0 => Option.none
    | fuel + 1 =>
      if isSpaceCh c then lexExpr fuel rest
      else if c == '+' then (lexExpr fuel rest).map (ATok.plus :: ·)
      else if c == '-' then (lexExpr fuel rest).map (ATok.minus :: ·)
      else if c == '*' then
        match rest with
        | '*' :: rest' => (lexExpr fuel rest').map (ATok.dstar :: ·)
        | _ => (lexExpr fuel rest).map (ATok.star :: ·)
      else if c == '/' then
        match rest with
        | '/' :: rest' => (lexExpr fuel rest').map (ATok.dslash :: ·)
        | _ => (lexExpr fuel rest).map (ATok.slash :: ·)
      else if c == '(' then (lexExpr fuel rest).map (ATok.lpar :: ·)
      else if c == ')' then (lexExpr fuel rest).map (ATok.rpar :: ·)
      else if listStartsWith ("...".toList) (c :: rest) then
        (lexExpr fuel (rest.drop 2)).map (ATok.edots :: ·)
      else if c.isDigit || c == '.' then
        let span := (c :: rest).takeWhile (fun d => d.isDigit || d == '_' || d == '.')
        match parseNumLit span with
        | Option.some v => (lexExpr fuel ((c :: rest).drop span.length)).map (ATok.num v :: ·)
        | Option.none => Option.none
      else Option.none

/-- Python `+`: int+int is an int, number+number a float, `()+()` the empty
tuple; anything else raises `TypeError` (an `approx` operand keeps the
result out-of-model). -/
def pyAdd : PyObj → PyObj → Option PyObj
  | .int a, .int b => Option.some (.int (a + b))
  | .tuple0, .tuple0 => Option.some .tuple0
  | a, b =>
    if a.isExactNum && b.isExactNum then Option.some (.float (a.qval + b.qval))
    else if a.isNum && b.isNum then Option.some .approx
    else Option.none

/-- Python `-` (binary): numbers only. -/
def pySub : PyObj → PyObj → Option PyObj
  | .int a, .int b => Option.some (.int (a - b))
  | a, b =>
    if a.isExactNum && b.isExactNum then Option.some (.float (a.qval - b.qval))
    else if a.isNum && b.isNum then Option.some .approx
    else Option.none

/-- Python `*`: numbers, plus tuple repetition `() * int = int * () = ()`. -/
def pyMul : PyObj → PyObj → Option PyObj
  | .int a, .int b => Option.some (.int (a * b))
  | .tuple0, .int _ => Option.some .tuple0
  | .int _, .tuple0 => Option.some .tuple0
  | a, b =>
    if a.isExactNum && b.isExactNum then Option.some (.float (a.qval * b.qval))
    else if a.isNum && b.isNum then Option.some .approx
    else Option.none

/-- Python true division: always a float; `none` on a zero divisor
(`ZeroDivisionError`) or non-numeric operands (`TypeError`). -/
def pyDiv (a b : PyObj) : Option PyObj :=
  if a.isExactNum && b.isExactNum then
    if b.qval = 0 then Option.none else Option.some (.float (a.qval / b.qval))
  else if a.isNum && b.isNum then Option.some .approx
  else Option.none

/-- Python floor division `//`: int//int is an int (flooring), otherwise a
float; `none` on a zero divisor or non-numeric operands. -/
def pyFloorDiv : PyObj → PyObj → Option PyObj
  | .int a, .int b => if b = 0 then Option.none else Option.some (.int (Int.fdiv a b))
  | a, b =>
    if a.isExactNum && b.isExactNum then
      if b.qval = 0 then Option.none
      else Option.some (.float ((⌊a.qval / b.qval⌋ : ℤ) : ℚ))
    else if a.isNum && b.isNum then Option.some .approx
    else Option.none

/-- Python `**`: exact for an integer-valued exponent (int base and
non-negative int exponent give an int, otherwise a float; a negative
exponent on zero raises `ZeroDivisionError`).  A non-integer exponent
yields a value outside the exact-rational model (an irrational float, or a
complex number for a negative base) — modelled as `approx`.  Non-numeric
operands raise `TypeError`. -/
def pyPow : PyObj → PyObj → Option PyObj
  | .int a, .int b =>
    if 0 ≤ b then Option.some (.int (a ^ b.toNat))
    else if a = 0 then Option.none
    else Option.some (.float (1 / ((a : ℚ) ^ b.natAbs)))
  | a, b =>
    if a.isExactNum && b.isExactNum then
      if b.qval.den = 1 then
        if 0 ≤ b.qval.num then Option.some (.float (a.qval ^ b.qval.num.toNat))
        else if a.qval = 0 then Option.none
        else Option.some (.float (1 / (a.qval ^ b.qval.num.natAbs)))
      else Option.some .approx
    else if a.isNum && b.isNum then Option.some .approx
    else Option.none

/-- Python unary minus: numbers only (`-()` raises `TypeError`). -/
def pyNeg : PyObj → Option PyObj
  | .int n => Option.some (.int (-n))
  | .float q => Option.some (.float (-q))
  | .approx => Option.some .approx
  | _ => Option.none

/-- Python unary plus: numbers only. -/
def pyPos (a : PyObj) : Option PyObj :=
  if a.isNum then Option.some a else Option.none

mutual

/-- `expr := term (('+' | '-') term)*` -/
def parseE (fuel : Nat) (ts : List ATok) : Option (PyObj × List ATok) :=
  match fuel with
  | 0 => Option.none
  | fuel + 1 =>
    match parseT fuel ts with
    | Option.some (v, r) => parseELoop fuel v r
    | Option.none => Option.none

def parseELoop (fuel : Nat) (acc : PyObj) (ts : List ATok) : Option (PyObj × List ATok) :=
  match fuel with
  | 0 => Option.none
  | fuel + 1 =>
    match ts with
    | ATok.plus :: r =>
      match parseT fuel r with
      | Option.some (v, r') =>
        match pyAdd acc v with
        | Option.some w => parseELoop fuel w r'
        | Option.none => Option.none
      | Option.none => Option.none
    | ATok.minus :: r =>
      match parseT fuel r with
      | Option.some (v, r') =>
        match pySub acc v with
        | Option.some w => parseELoop fuel w r'
        | Option.none => Option.none
      | Option.none => Option.none
    | _ => Option.some (acc, ts)

/-- `term := factor (('*' | '/' | '//') factor)*` -/
def parseT (fuel : Nat) (ts : List ATok) : Option (PyObj × List ATok) :=
  match fuel with
  | 0 => Option.none
  | fuel + 1 =>
    match parseU fuel ts with
    | Option.some (v, r) => parseTLoop fuel v r
    | Option.none => Option.none

def parseTLoop (fuel : Nat) (acc : PyObj) (ts : List ATok) : Option (PyObj × List ATok) :=
  match fuel with
  | 0 => Option.none
  | fuel + 1 =>
    match ts with
    | ATok.star :: r =>
      match parseU fuel r with
      | Option.some (v, r') =>
        match pyMul acc v with
        | Option.some w => parseTLoop fuel w r'
        | Option.none => Option.none
      | Option.none => Option.none
    | ATok.slash :: r =>
      match parseU fuel r with
      | Option.some (v, r') =>
        match pyDiv acc v with
        | Option.some w => parseTLoop fuel w r'
        | Option.none => Option.none
      | Option.none => Option.none
    | ATok.dslash :: r =>
      match parseU fuel r with
      | Option.some (v, r') =>
        match pyFloorDiv acc v with
        | Option.some w => parseTLoop fuel w r'
        | Option.none => Option.none
      | Option.none => Option.none
    | _ => Option.some (acc, ts)

/-- `factor := ('-' | '+') factor | power`; unary minus binds looser than
`**` on the left (`-2**2 = -4`). -/
def parseU (fuel : Nat) (ts : List ATok) : Option (PyObj × List ATok) :=
  match fuel with
  | 0 => Option.none
  | fuel + 1 =>
    match ts with
    | ATok.minus :: r =>
      match parseU fuel r with
      | Option.some (v, r') =>
        match pyNeg v with
        | Option.some w => Option.some (w, r')
        | Option.none => Option.none
      | Option.none => Option.none
    | ATok.plus :: r =>
      match parseU fuel r with
      | Option.some (v, r') =>
        match pyPos v with
        | Option.some w => Option.some (w, r')
        | Option.none => Option.none
      | Option.none => Option.none
    | _ => parsePow fuel ts

/-- `power := primary ['**' factor]`; right-associative, and the exponent
may carry unary signs (`2**-1 = 0.5`). -/
def parsePow (fuel : Nat) (ts : List ATok) : Option (PyObj × List ATok) :=
  match fuel with
  | 0 => Option.none
  | fuel + 1 =>
    match parseP fuel ts with
    | Option.some (v, ATok.dstar :: r) =>
      match parseU fuel r with
      | Option.some (w, r') =>
        match pyPow v w with
        | Option.some u => Option.some (u, r')
        | Option.none => Option.none
      | Option.none => Option.none
    | Option.some (v, r) => Option.some (v, r)
    | Option.none => Option.none

/-- `primary := number | '...' | '(' ')' | '(' expr ')'` -/
def parseP (fuel : Nat) (ts : List ATok) : Option (PyObj × List ATok) :=
  match fuel with
  | 0 => Option.none
  | fuel + 1 =>
    match ts with
    | ATok.num v :: r => Option.some (v, r)
    | ATok.edots :: r => Option.some (PyObj.ellipsis, r)
    | ATok.lpar :: ATok.rpar :: r => Option.some (PyObj.tuple0, r)
    | ATok.lpar :: r =>
      match parseE fuel r with
      | Option.some (v, ATok.rpar :: r') => Option.some (v, r')
      | _ => Option.none
    | _ => Option.none

end

/-- Python `eval` of a substituted formula expression: `some v` when
evaluation succeeds with value `v` (possibly non-numeric: `()`,
`Ellipsis`); `none` models a raised exception (`SyntaxError`, `NameError`,
`ZeroDivisionError`, `TypeError`). -/
def evalExpr (e : List Char) : Option PyObj :=
  match lexExpr (e.length + 1) e with
  | Option.some ts =>
    match parseE (4 * ts.length + 8) ts with
    | Option.some (v, []) => Option.some v
    | _ => Option.none
  | Option.none => Option.none

/- ## Per-row formula evaluation (`_evaluate_formula`) -/

/-- One row of `_evaluate_formula`'s loop: substitute, safety-check, try the
quote-stripping repair, evaluate; any failure degrades to int `0` (the
per-row `except` appends `0`). -/
def rowResult (body : List Char) (row : List (String × PyObj)) (od : OutputData)
    (idx : Nat) : PyObj :=
  let e := substituteRefs body row od idx
  if isSafeExpr e then
    match evalExpr e with
    | Option.some v => v
    | Option.none => PyObj.int 0
  else
    let fixed := e.filter (fun c => c ≠ '"')
    if isSafeExpr fixed then
      match evalExpr fixed with
      | Option.some v => v
      | Option.none => PyObj.int 0
    else PyObj.int 0

/-- `formula[1:].strip()`: drop the leading `=` and surrounding whitespace. -/
def formulaBody (formula : String) : List Char := pyStrip (formula.toList.drop 1)

/-- `_evaluate_formula`: one value per input row. -/
def evaluateFormula (formula : String) (t : Table) (od : OutputData) : List PyObj :=
  (List.range t.rowCount).map (fun i => rowResult (formulaBody formula) (t.row i) od i)

/- ## Mapping configuration (the fields the processor reads, with the
`dict.get` defaults of `excel_processor.py`) -/

structure VoidConfig where
  enabled : Bool := false
  zero_columns : List String := []
deriving DecidableEq

structure ColumnRule where
  name : String := ""
  source_column : String := ""
  remove_asterisks : Bool := false
deriving DecidableEq

structure MappingConfig where
  output_columns : List ColumnRule := []
  column_order : List String := []
  void : VoidConfig := {}
deriving DecidableEq

/- ## Void filter (`_apply_void_filtering`) -/

/-- `existing_columns`: the configured zero-columns that exist in the input. -/
def existingCols (df : Table) (cfg : MappingConfig) : List String :=
  cfg.void.zero_columns.filter (fun c => df.colNames.contains c)

/-- The coerced numeric value of column `c` at row `i`
(`pd.to_numeric(df[col], errors='coerce').fillna(0)`). -/
def coerceCell (df : Table) (c : String) (i : Nat) : ℚ :=
  toNumeric (((df.cols.find? (fun p => p.1 == c)).map (fun p => p.2.getD i PyObj.none)).getD PyObj.none)

/-- The void-row mask: row `i` is void iff every existing zero-column coerces
to 0 there. -/
def voidMask (df : Table) (existing : List String) (i : Nat) : Bool :=
  existing.all (fun c => coerceCell df c i == 0)

/-- The indices of the surviving (non-void) rows, in order. -/
def keptIndices (df : Table) (existing : List String) : List Nat :=
  (List.range df.rowCount).filter (fun i => !voidMask df existing i)

/-- `_apply_void_filtering`: identity when disabled, no zero-columns are
configured, or none exist in the input; otherwise drop the rows on which all
existing zero-columns coerce to 0 (`df[~mask]`), returning `df` itself when
no row is void. -/
def applyVoidFiltering (df : Table) (cfg : MappingConfig) : Table :=
  if !cfg.void.enabled then df
  else if cfg.void.zero_columns.isEmpty then df
  else
    let existing := existingCols df cfg
    if existing.isEmpty then df
    else
      let voidRows := ((List.range df.rowCount).filter (fun i => voidMask df existing i)).length
      if 0 < voidRows then
        ⟨df.cols.map (fun p => (p.1, (keptIndices df existing).map (fun j => p.2.getD j PyObj.none)))⟩
      else df

/- ## Column mapper (`apply_mapping`, `_map_column`) -/

/-- `_map_column`: copy the input column of that exact name (with the
optional `remove_asterisks` transform on non-missing values), or an
all-empty-string column with a warning when the name is absent. -/
def mapColumn (src : String) (ft : Table) (cc : ColumnRule) : List PyObj :=
  match ft.cols.find? (fun p => p.1 == src) with
  | Option.some p =>
    if cc.remove_asterisks then
      p.2.map (fun v => if v ≠ PyObj.none then PyObj.str (String.mk ((pyStr v).filter (fun c => c ≠ '*'))) else v)
    else p.2
  | Option.none => List.replicate ft.rowCount (PyObj.str "")

/-- The value column computed for one rule, by `source_column` kind:
formula (`=`-prefixed), blank (empty), or direct mapping. -/
def computeColumn (cc : ColumnRule) (ft : Table) (od : OutputData) : List PyObj :=
  if cc.source_column.toList.headD ' ' == '=' then evaluateFormula cc.source_column ft od
  else if cc.source_column == "" then List.replicate ft.rowCount (PyObj.str "")
  else mapColumn cc.source_column ft cc

/-- Python dict insertion: overwrite in place when the key exists (keeping
its position), else append. -/
def dictInsert (od : List (String × List PyObj)) (k : String) (v : List PyObj) :
    List (String × List PyObj) :=
  if (od.map Prod.fst).contains k then
    od.map (fun p => if p.1 == k then (k, v) else p)
  else od ++ [(k, v)]

/-- One iteration of `apply_mapping`'s rule loop: skip blank names, else
compute the column and store it under the trimmed name. -/
def mapStep (ft : Table) (od : OutputData) (cc : ColumnRule) : OutputData :=
  let n := pyStripStr cc.name
  if n == "" then od else dictInsert od n (computeColumn cc ft od)

/-- The `output_data` dict after processing all rules in order. -/
def buildOutputData (ft : Table) (rules : List ColumnRule) : OutputData :=
  rules.foldl (mapStep ft) []

/-- `apply_mapping`: void-filter the input, build the output columns rule by
rule, then reorder columns when `column_order` is non-empty: listed names
that exist first (in listed order), remaining columns after (in built
order). -/
def applyMapping (input : Table) (cfg : MappingConfig) : Table :=
  let ft := applyVoidFiltering input cfg
  let od := buildOutputData ft cfg.output_columns
  if cfg.column_order.isEmpty then ⟨od⟩
  else
    let odNames := od.map Prod.fst
    let valid := cfg.column_order.filter (fun c => odNames.contains c)
    let remaining := odNames.filter (fun c => !valid.contains c)
    ⟨(valid ++ remaining).map (fun n =>
      (n, ((od.find? (fun p => p.1 == n)).map Prod.snd).getD []))⟩

/-- How one rule extends the list of output column names: skip blank names,
keep the first occurrence of a duplicate (overwriting reuses the slot). -/
def nameStep (ns : List String) (cc : ColumnRule) : List String :=
  let n := pyStripStr cc.name
  if n == "" then ns else if ns.contains n then ns else ns ++ [n]

/-- The output column names produced by the rule loop: trimmed non-blank
rule names, first occurrence kept (later duplicates overwrite in place). -/
def outputNames (rules : List ColumnRule) : List String :=
  rules.foldl nameStep []

/- ## Header locator (`_find_header_row`) -/

def headerKeywords : List (List Char) :=
  ["name", "employee", "pay", "gross", "net", "date", "period",
   "amount", "salary", "wage", "hours", "rate", "deduction",
   "tax", "social", "security", "medicare", "federal", "state"].map String.toList

/-- The lower-cased, space-joined text of the non-missing cells of a row. -/
def rowString (row : List PyObj) : List Char :=
  toLowerList (List.intercalate [' '] ((row.filter (fun v => v ≠ PyObj.none)).map pyStr))

/-- How many header keywords occur in the row's joined text. -/
def rowMatches (row : List PyObj) : Nat :=
  headerKeywords.countP (fun k => hasSub k (rowString row))

/-- The scan loop of `_find_header_row`: `break` once the index exceeds 20,
return the first index whose keyword count is at least 3. -/
def findHeaderAux : List (List PyObj) → Nat → Option Nat
  | [], _ => Option.none
  | r :: rs, idx =>
    if 20 < idx then Option.none
    else if 3 ≤ rowMatches r then Option.some idx
    else findHeaderAux rs (idx + 1)

/-- `_find_header_row` over the raw grid. -/
def findHeaderRow (g : List (List PyObj)) : Option Nat := findHeaderAux g 0

/-- Modelled from the spec (refinement target for the header-locator claim):
the first row index within the scan window whose keyword count is ≥ 3 —
with the window as the code actually has it, the first 21 rows
(indices 0 through 20). -/
def headerScanSpec (g : List (List PyObj)) : Option Nat :=
  (g.take 21).findIdx? (fun r => 3 ≤ rowMatches r)

/- ## Config validation (`config_manager.py`) over a JSON-like value type -/

/-- A JSON value, as loaded from a configuration file. -/
inductive JV where
  | str (s : String)
  | num (q : ℚ)
  | bool (b : Bool)
  | null
  | arr (xs : List JV)
  | obj (fields : List (String × JV))

/-- Field lookup in a JSON object. -/
def jlookup (fs : List (String × JV)) (k : String) : Option JV :=
  (fs.find? (fun p => p.1 == k)).map Prod.snd

/-- A single-quote character, as it appears inside the Python error
messages. -/
def apos : String := String.mk [Char.ofNat 39]

/-- Python `str()` of a JSON value as interpolated into error messages
(only the string case is exercised by the modelled claims; containers get a
placeholder). -/
def jvDisplay : JV → String
  | .str s => s
  | .bool b => if b then "True" else "False"
  | .num q => if q.den = 1 then String.mk (intChars q.num) else String.mk (floatChars q)
  | .null => "None"
  | .arr _ => "[...]"
  | .obj _ => "{...}"

/-- Python `float(x)` on a JSON value: numbers and bools convert, strings
parse, everything else raises (`TypeError`). -/
def jvFloat : JV → Option ℚ
  | .num q => Option.some q
  | .bool b => Option.some (if b then 1 else 0)
  | .str s => parseFloat s.toList
  | _ => Option.none

/-- `_is_valid_hex_color`: empty allowed, else exactly 6 hex digits. -/
def isValidHexColor (s : String) : Bool :=
  s.toList.isEmpty ||
    (s.toList.length == 6 && s.toList.all (fun c =>
      c.isDigit || ('a' ≤ c.toLower && c.toLower ≤ 'f')))

def colMsg (n : Nat) (rest : String) : String :=
  "Column " ++ natStr n ++ " " ++ rest

/-- `_validate_column_config` for the rule at 1-based position `n`.
Note (faithful to the code): the `width must be positive` error raised for a
non-positive width is caught by the surrounding `except (TypeError,
ValueError)` and re-raised as `width must be a number`. -/
def validateColumnConfig (cc : JV) (n : Nat) : Except String Unit := do
  match cc with
  | .obj fs =>
    match jlookup fs "name" with
    | Option.none => throw (colMsg n ("missing required " ++ apos ++ "name" ++ apos ++ " field"))
    | Option.some nv =>
      match nv with
      | .str s =>
        if pyStripStr s == "" then
          throw (colMsg n (apos ++ "name" ++ apos ++ " cannot be empty"))
        else pure ()
      | _ => throw (colMsg n (apos ++ "name" ++ apos ++ " must be a string"))
    match jlookup fs "source_column" with
    | Option.some (.str _) => pure ()
    | Option.none => pure ()
    | Option.some _ => throw (colMsg n (apos ++ "source_column" ++ apos ++ " must be a string"))
    match jlookup fs "alignment" with
    | Option.none => pure ()
    | Option.some a =>
      match a with
      | .str s =>
        if s == "left" || s == "center" || s == "right" then pure ()
        else throw (colMsg n ("invalid alignment: " ++ s))
      | _ => throw (colMsg n ("invalid alignment: " ++ jvDisplay a))
    match jlookup fs "width" with
    | Option.none => pure ()
    | Option.some w =>
      match jvFloat w with
      | Option.some q => if q ≤ 0 then throw (colMsg n "width must be a number") else pure ()
      | Option.none => throw (colMsg n "width must be a number")
    match jlookup fs "formatting" with
    | Option.some (.obj _) => pure ()
    | Option.none => pure ()
    | Option.some _ => throw (colMsg n (apos ++ "formatting" ++ apos ++ " must be a dictionary"))
  | _ => throw ("Column " ++ natStr n ++ " must be a dictionary")

def validateColumnsFrom : List JV → Nat → Except String Unit
  | [], _ => pure ()
  | c :: rest, n => do
    validateColumnConfig c n
    validateColumnsFrom rest (n + 1)

/-- `_validate_output_columns`. -/
def validateOutputColumns (fs : List (String × JV)) : Except String Unit := do
  match jlookup fs "output_columns" with
  | Option.none => throw ("Missing required " ++ apos ++ "output_columns" ++ apos ++ " field")
  | Option.some v =>
    match v with
    | .arr cols =>
      if cols.isEmpty then throw (apos ++ "output_columns" ++ apos ++ " cannot be empty")
      else validateColumnsFrom cols 1
    | _ => throw (apos ++ "output_columns" ++ apos ++ " must be a list")

/-- `_validate_header_formatting`. -/
def validateHeaderFormatting (hv : JV) : Except String Unit := do
  match hv with
  | .obj fs =>
    match jlookup fs "bold" with
    | Option.some (.bool _) => pure ()
    | Option.none => pure ()
    | Option.some _ => throw ("Header formatting " ++ apos ++ "bold" ++ apos ++ " must be boolean")
    match jlookup fs "background_color" with
    | Option.none => pure ()
    | Option.some (.str s) =>
      if !s.toList.isEmpty && !isValidHexColor s then
        throw ("Header formatting " ++ apos ++ "background_color" ++ apos ++ " must be a valid hex color")
      else pure ()
    | Option.some _ => throw ("Header formatting " ++ apos ++ "background_color" ++ apos ++ " must be a string")
    match jlookup fs "font_color" with
    | Option.none => pure ()
    | Option.some (.str s) =>
      if !s.toList.isEmpty && !isValidHexColor s then
        throw ("Header formatting " ++ apos ++ "font_color" ++ apos ++ " must be a valid hex color")
      else pure ()
    | Option.some _ => throw ("Header formatting " ++ apos ++ "font_color" ++ apos ++ " must be a string")
    match jlookup fs "alignment" with
    | Option.none => pure ()
    | Option.some a =>
      match a with
      | .str s =>
        if s == "left" || s == "center" || s == "right" then pure ()
        else throw ("Header formatting invalid alignment: " ++ s)
      | _ => throw ("Header formatting invalid alignment: " ++ jvDisplay a)
  | _ => throw (apos ++ "header_formatting" ++ apos ++ " must be a dictionary")

/-- `^[A-Z]+\d+$` on the upper-cased string (legacy freeze-panes cell
reference). -/
def validCellRef (s : String) : Bool :=
  let u := s.toList.map Char.toUpper
  let ls := u.takeWhile (fun c => 'A' ≤ c && c ≤ 'Z')
  let ds := u.drop ls.length
  !ls.isEmpty && !ds.isEmpty && ds.all Char.isDigit

def validateFreezeCols : List JV → Nat → Except String Unit
  | [], _ => pure ()
  | c :: rest, i =>
    match c with
    | .str _ => validateFreezeCols rest (i + 1)
    | _ => throw ("General settings freeze_panes " ++ apos ++ "freeze_columns[" ++ natStr i ++ "]" ++ apos ++ " must be a string")

/-- `_validate_general_settings`. -/
def validateGeneralSettings (gv : JV) : Except String Unit := do
  match gv with
  | .obj fs =>
    match jlookup fs "auto_fit_columns" with
    | Option.some (.bool _) => pure ()
    | Option.none => pure ()
    | Option.some _ => throw ("General settings " ++ apos ++ "auto_fit_columns" ++ apos ++ " must be boolean")
    match jlookup fs "freeze_panes" with
    | Option.none => pure ()
    | Option.some fp =>
      match fp with
      | .null => pure ()
      | .str s =>
        if s == "" then pure ()
        else if validCellRef s then pure ()
        else throw ("General settings " ++ apos ++ "freeze_panes" ++ apos ++
          " string must be a valid Excel cell reference (e.g., " ++ apos ++ "A2" ++ apos ++ ", " ++ apos ++ "B3" ++ apos ++ ")")
      | .obj ffs => do
        match jlookup ffs "freeze_header" with
        | Option.some (.bool _) => pure ()
        | Option.none => pure ()
        | Option.some _ => throw ("General settings freeze_panes " ++ apos ++ "freeze_header" ++ apos ++ " must be boolean")
        match jlookup ffs "freeze_columns" with
        | Option.none => pure ()
        | Option.some (.arr xs) => validateFreezeCols xs 0
        | Option.some _ => throw ("General settings freeze_panes " ++ apos ++ "freeze_columns" ++ apos ++ " must be a list")
      | .bool false => pure ()
      | .num q => if q = 0 then pure () else throw ("General settings " ++ apos ++ "freeze_panes" ++ apos ++ " must be a string or dictionary")
      | .arr [] => pure ()
      | _ => throw ("General settings " ++ apos ++ "freeze_panes" ++ apos ++ " must be a string or dictionary")
  | _ => throw (apos ++ "general_settings" ++ apos ++ " must be a dictionary")

def validateZeroCols : List JV → Nat → Except String Unit
  | [], _ => pure ()
  | c :: rest, i =>
    match c with
    | .str _ => validateZeroCols rest (i + 1)
    | _ => throw ("Void settings " ++ apos ++ "zero_columns[" ++ natStr i ++ "]" ++ apos ++ " must be a string")

/-- `_validate_void_settings`. -/
def validateVoidSettings (vv : JV) : Except String Unit := do
  match vv with
  | .obj fs =>
    match jlookup fs "enabled" with
    | Option.some (.bool _) => pure ()
    | Option.none => pure ()
    | Option.some _ => throw ("Void settings " ++ apos ++ "enabled" ++ apos ++ " must be boolean")
    match jlookup fs "zero_columns" with
    | Option.none => pure ()
    | Option.some (.arr xs) => validateZeroCols xs 0
    | Option.some _ => throw ("Void settings " ++ apos ++ "zero_columns" ++ apos ++ " must be a list")
  | _ => throw (apos ++ "void" ++ apos ++ " must be a dictionary")

/-- The body of `validate_config` (before the wrapping `except`). -/
def validateConfigInner (c : JV) : Except String Unit := do
  match c with
  | .obj fs =>
    validateOutputColumns fs
    match jlookup fs "header_formatting" with
    | Option.some hv => validateHeaderFormatting hv
    | Option.none => pure ()
    match jlookup fs "general_settings" with
    | Option.some gv => validateGeneralSettings gv
    | Option.none => pure ()
    match jlookup fs "void" with
    | Option.some vv => validateVoidSettings vv
    | Option.none => pure ()
  | _ => throw "Configuration must be a dictionary"

/-- `validate_config`: every inner failure is re-raised as
`ValueError("Invalid configuration: ...")`. -/
def validateConfig (c : JV) : Except String Unit :=
  match validateConfigInner c with
  | Except.error e => Except.error ("Invalid configuration: " ++ e)
  | Except.ok _ => Except.ok ()

instance : DecidableEq (Except String Unit) :=
  fun a b =>
    match a, b with
    | .ok (), .ok () => isTrue rfl
    | .error e, .error f =>
      if h : e = f then isTrue (by rw [h]) else isFalse (fun hh => by cases hh; exact h rfl)
    | .ok _, .error _ => isFalse (fun h => by cases h)
    | .error _, .ok _ => isFalse (fun h => by cases h)

/- ## Claim-side predicates and concrete instances used by the claims -/

/-- The character grammar exactly as claim C2 states it: digits,
`+ - * / ( ) .` and whitespace (no underscore). -/
def claimAllowedCh (c : Char) : Bool :=
  c.isDigit || c == '+' || c == '-' || c == '*' || c == '/' || c == '(' ||
  c == ')' || c == '.' || isSpaceCh c

/-- Claim C2's safety predicate as stated (restricted grammar and no banned
substrings). -/
def claimSafe (e : List Char) : Bool :=
  e.all claimAllowedCh && !(bannedSubs.any (fun b => hasSub b (toLowerList e)))

/-- The amended grammar: the code additionally allows the underscore. -/
def amendAllowedCh (c : Char) : Bool := claimAllowedCh c || c == '_'

/-- The amended safety predicate (grammar with underscore). -/
def amendSafe (e : List Char) : Bool :=
  e.all amendAllowedCh && !(bannedSubs.any (fun b => hasSub b (toLowerList e)))

/-- The failure conditions of one row of `_evaluate_formula`: the
substituted expression (after the one quote-stripping repair) is unsafe, or
the evaluation of the chosen safe expression raises (division by zero,
malformed residual syntax). -/
def rowDegrades (body : List Char) (row : List (String × PyObj)) (od : OutputData)
    (idx : Nat) : Prop :=
  let e := substituteRefs body row od idx
  (isSafeExpr e = false ∧ isSafeExpr (e.filter (fun c => c ≠ '"')) = false) ∨
  (isSafeExpr e = true ∧ evalExpr e = Option.none) ∨
  (isSafeExpr e = false ∧ isSafeExpr (e.filter (fun c => c ≠ '"')) = true ∧
    evalExpr (e.filter (fun c => c ≠ '"')) = Option.none)

/-- The input table of the formula-determinism claim: A=[1,2], B=[3,4]. -/
def tableAB : Table :=
  ⟨[("A", [PyObj.int 1, PyObj.int 2]), ("B", [PyObj.int 3, PyObj.int 4])]⟩

/-- A one-row, one-column table used as a generic small input. -/
def tableX : Table := ⟨[("X", [PyObj.int 7])]⟩

/-- A one-row table for the safety counterexample. -/
def tableC : Table := ⟨[("C1", [PyObj.int 5])]⟩

/-- The forward-reference configuration: `Total = "=A + B"` followed by
`Double = "=Total * 2"`. -/
def cfgForward : MappingConfig :=
  { output_columns := [{ name := "Total", source_column := "=A + B" },
                       { name := "Double", source_column := "=Total * 2" }] }

/-- The void-filter example: columns A,B with rows (0,0),(0,1),(1,0). -/
def tableVoid : Table :=
  ⟨[("A", [PyObj.int 0, PyObj.int 0, PyObj.int 1]),
    ("B", [PyObj.int 0, PyObj.int 1, PyObj.int 0])]⟩

/-- Void filtering enabled on columns A and B. -/
def cfgVoid : MappingConfig :=
  { void := { enabled := true, zero_columns := ["A", "B"] } }

/-- Three blank output columns A,B,C with `column_order=[C,A]`. -/
def cfgOrder : MappingConfig :=
  { output_columns := [{ name := "A" }, { name := "B" }, { name := "C" }],
    column_order := ["C", "A"] }

/-- Two rules sharing the name A together with a duplicated `column_order`
entry (the counterexample configuration for the duplicate-name claim). -/
def cfgDupOrder : MappingConfig :=
  { output_columns := [{ name := "A" }, { name := "A" }],
    column_order := ["A", "A"] }

/-- Two rules named A: a blank column overwritten by the formula `=1 + 1`. -/
def cfgDupRules : MappingConfig :=
  { output_columns := [{ name := "A", source_column := "" },
                       { name := "A", source_column := "=1 + 1" }] }

/-- A JSON config whose two column rules share the non-blank name X. -/
def jsonDupNames : JV :=
  JV.obj [("output_columns", JV.arr [JV.obj [("name", JV.str "X")],
                                     JV.obj [("name", JV.str "X")]])]

/-- A JSON config with an empty `output_columns` list. -/
def jsonEmptyCols : JV := JV.obj [("output_columns", JV.arr [])]

/-- A JSON config whose only rule misses the `name` field. -/
def jsonNoName : JV :=
  JV.obj [("output_columns", JV.arr [JV.obj [("source_column", JV.str "X")]])]

/-- A JSON config whose only rule has alignment `diagonal`. -/
def jsonDiagonal : JV :=
  JV.obj [("output_columns", JV.arr [JV.obj [("name", JV.str "A"),
                                             ("alignment", JV.str "diagonal")]])]

/-- A JSON config whose only rule has width -2. -/
def jsonNegWidth : JV :=
  JV.obj [("output_columns", JV.arr [JV.obj [("name", JV.str "A"),
                                             ("width", JV.num (-2))]])]

/-- A raw grid whose first qualifying row sits at index 20 (the 21st row):
20 junk rows followed by a row containing three header keywords. -/
def grid21 : List (List PyObj) :=
  List.replicate 20 [PyObj.str "x"] ++ [[PyObj.str "name", PyObj.str "pay", PyObj.str "gross"]]

/- ## General lemmas -/

theorem getD_map_range {α : Type} (g : Nat → α) {i n : Nat} (h : i < n) (d : α) :
    ((List.range n).map g).getD i d = g i := by
  rw [List.getD_eq_getElem?_getD, List.getElem?_map, List.getElem?_range h]
  rfl

theorem map_range_getD {α : Type} (l : List α) (d : α) :
    (List.range l.length).map (fun j => l.getD j d) = l := by
  apply List.ext_getElem
  · simp
  · intro n h1 h2
    simp only [List.getElem_map, List.getElem_range]
    rw [List.getD_eq_getElem l d h2]

theorem getD_map_lt {α β : Type} (l : List α) (g : α → β) {i : Nat} (h : i < l.length)
    (d : α) (e : β) : (l.map g).getD i e = g (l.getD i d) := by
  rw [List.getD_eq_getElem?_getD, List.getElem?_map,
    List.getElem?_eq_getElem (by simpa using h), List.getD_eq_getElem l d h]
  rfl

theorem contains_eq_true_iff {α : Type} [BEq α] [LawfulBEq α] (l : List α) (a : α) :
    l.contains a = true ↔ a ∈ l := by
  simp [List.contains]

theorem length_evaluateFormula (f : String) (t : Table) (od : OutputData) :
    (evaluateFormula f t od).length = t.rowCount := by
  simp [evaluateFormula]

theorem getD_evaluateFormula (f : String) (t : Table) (od : OutputData) {i : Nat}
    (h : i < t.rowCount) (d : PyObj) :
    (evaluateFormula f t od).getD i d = rowResult (formulaBody f) (t.row i) od i := by
  unfold evaluateFormula
  exact getD_map_range _ h d

/- ## Void filter lemmas -/

theorem colNames_nonempty_of_existing {df : Table} {cfg : MappingConfig}
    (h : existingCols df cfg ≠ []) : df.cols ≠ [] := by
  intro hnil
  apply h
  rcases hx : existingCols df cfg with _ | ⟨c, cs⟩
  · rfl
  · exfalso
    have hc : c ∈ existingCols df cfg := by rw [hx]; exact List.mem_cons_self c cs
    unfold existingCols at hc
    have := (List.mem_filter.mp hc).2
    rw [contains_eq_true_iff] at this
    unfold Table.colNames at this
    rw [hnil] at this
    simp at this

theorem applyVoidFiltering_of_identity (df : Table) (cfg : MappingConfig)
    (h : cfg.void.enabled = false ∨ cfg.void.zero_columns = [] ∨ existingCols df cfg = []) :
    applyVoidFiltering df cfg = df := by
  unfold applyVoidFiltering
  rcases h with h | h | h
  · simp [h]
  · simp [h]
  · by_cases he : cfg.void.enabled
    · by_cases hz : cfg.void.zero_columns.isEmpty
      · simp [he, hz]
      · have hie : (existingCols df cfg).isEmpty = true := by simp [List.isEmpty_iff, h]
        simp [he, hz, hie]
    · simp [he]

theorem applyVoidFiltering_of_filtering (df : Table) (cfg : MappingConfig) (hwf : df.wf)
    (he : cfg.void.enabled = true) (hx : existingCols df cfg ≠ []) :
    applyVoidFiltering df cfg =
      ⟨df.cols.map (fun p => (p.1,
        (keptIndices df (existingCols df cfg)).map (fun j => p.2.getD j PyObj.none)))⟩ := by
  have hz : cfg.void.zero_columns ≠ [] := by
    intro hnil
    exact hx (by simp [existingCols, hnil])
  unfold applyVoidFiltering
  rw [he]
  simp only [Bool.not_true, if_false, show cfg.void.zero_columns.isEmpty = false by
      simpa [List.isEmpty_iff] using hz,
    show (existingCols df cfg).isEmpty = false by simpa [List.isEmpty_iff] using hx]
  by_cases hv : 0 < ((List.range df.rowCount).filter
      (fun i => voidMask df (existingCols df cfg) i)).length
  · simp [hv]
  · simp only [hv, if_false]
    have hnone : ∀ i < df.rowCount, voidMask df (existingCols df cfg) i = false := by
      intro i hi
      have h0 : ((List.range df.rowCount).filter
          (fun i => voidMask df (existingCols df cfg) i)) = [] := by
        rcases hfe : (List.range df.rowCount).filter
            (fun i => voidMask df (existingCols df cfg) i) with _ | ⟨a, as⟩
        · rfl
        · exact absurd (by rw [hfe]; simp) hv
      have := List.filter_eq_nil_iff.mp h0 i (List.mem_range.mpr hi)
      simpa using this
    have hkept : keptIndices df (existingCols df cfg) = List.range df.rowCount := by
      unfold keptIndices
      rw [List.filter_eq_self]
      intro a ha
      simp [hnone a (List.mem_range.mp ha)]
    rw [hkept]
    have hmap : df.cols.map (fun p => (p.1, (List.range df.rowCount).map
        (fun j => p.2.getD j PyObj.none))) = df.cols.map id := by
      apply List.map_congr_left
      intro p hp
      have hlen := hwf p hp
      rw [← hlen, map_range_getD]
      rfl
    rw [hmap, List.map_id]
    rfl

theorem isEmpty_false_of_ne {α : Type} {l : List α} (h : l ≠ []) : l.isEmpty = false := by
  simpa [List.isEmpty_iff] using h

theorem colNames_map_vals (df : Table) (f : String × List PyObj → List PyObj) :
    (Table.mk (df.cols.map (fun p => (p.1, f p)))).colNames = df.colNames := by
  simp [Table.colNames]

theorem existingCols_map_vals (df : Table) (cfg : MappingConfig)
    (f : String × List PyObj → List PyObj) :
    existingCols ⟨df.cols.map (fun p => (p.1, f p))⟩ cfg = existingCols df cfg := by
  unfold existingCols
  rw [colNames_map_vals]

theorem find?_cols_map_vals (df : Table) (f : String × List PyObj → List PyObj) (c : String) :
    (df.cols.map (fun p => (p.1, f p))).find? (fun p => p.1 == c) =
      (df.cols.find? (fun p => p.1 == c)).map (fun p => (p.1, f p)) := by
  rw [List.find?_map]
  rfl

theorem coerceCell_filtered (df : Table) (kept : List Nat) (c : String) {i : Nat}
    (hi : i < kept.length) :
    coerceCell ⟨df.cols.map (fun p => (p.1, kept.map (fun j => p.2.getD j PyObj.none)))⟩ c i =
      coerceCell df c (kept.getD i 0) := by
  unfold coerceCell
  rw [show (Table.mk (df.cols.map (fun p =>
      (p.1, kept.map (fun j => p.2.getD j PyObj.none))))).cols =
      df.cols.map (fun p => (p.1, kept.map (fun j => p.2.getD j PyObj.none))) from rfl,
    find?_cols_map_vals]
  cases hf : df.cols.find? (fun p => p.1 == c) with
  | none => rfl
  | some p =>
    simp only [Option.map_some', Option.getD_some]
    exact congrArg toNumeric (getD_map_lt kept _ hi 0 _)

theorem voidMask_filtered (df : Table) (ex : List String) (kept : List Nat) {i : Nat}
    (hi : i < kept.length) :
    voidMask ⟨df.cols.map (fun p => (p.1, kept.map (fun j => p.2.getD j PyObj.none)))⟩ ex i =
      voidMask df ex (kept.getD i 0) := by
  unfold voidMask
  induction ex with
  | nil => rfl
  | cons c cs ih =>
    simp only [List.all_cons, ih]
    rw [coerceCell_filtered df kept c hi]

theorem rowCount_filtered (df : Table) (kept : List Nat) (h : df.cols ≠ []) :
    (Table.mk (df.cols.map (fun p =>
      (p.1, kept.map (fun j => p.2.getD j PyObj.none))))).rowCount = kept.length := by
  rcases hc : df.cols with _ | ⟨p, ps⟩
  · exact absurd hc h
  · simp [Table.rowCount, hc]

/-- After one filtering pass no surviving row is void, so a second pass
removes nothing. -/
theorem applyVoidFiltering_idem (df : Table) (cfg : MappingConfig) :
    applyVoidFiltering (applyVoidFiltering df cfg) cfg = applyVoidFiltering df cfg := by
  by_cases h1 : cfg.void.enabled = false ∨ cfg.void.zero_columns = [] ∨ existingCols df cfg = []
  · rw [applyVoidFiltering_of_identity df cfg h1]
    exact applyVoidFiltering_of_identity df cfg h1
  · push_neg at h1
    obtain ⟨he', hz, hx⟩ := h1
    have he : cfg.void.enabled = true := by
      cases hb : cfg.void.enabled
      · exact absurd hb he'
      · rfl
    by_cases hv : 0 < ((List.range df.rowCount).filter
        (fun i => voidMask df (existingCols df cfg) i)).length
    · have hfirst : applyVoidFiltering df cfg =
          ⟨df.cols.map (fun p => (p.1,
            (keptIndices df (existingCols df cfg)).map (fun j => p.2.getD j PyObj.none)))⟩ := by
        unfold applyVoidFiltering
        simp only [he, Bool.not_true, Bool.false_eq_true, if_false, isEmpty_false_of_ne hz,
          isEmpty_false_of_ne hx, hv, if_true]
      rw [hfirst]
      set ex := existingCols df cfg with hex
      set kept := keptIndices df ex with hkept
      set df' : Table :=
        ⟨df.cols.map (fun p => (p.1, kept.map (fun j => p.2.getD j PyObj.none)))⟩ with hdf'
      have hx' : existingCols df' cfg = ex := existingCols_map_vals df cfg _
      have hcols : df.cols ≠ [] := colNames_nonempty_of_existing hx
      have hrc : df'.rowCount = kept.length := rowCount_filtered df kept hcols
      have hmask : ∀ i < df'.rowCount, voidMask df' ex i = false := by
        intro i hi
        rw [hrc] at hi
        rw [voidMask_filtered df ex kept hi]
        have hmem : kept.getD i 0 ∈ kept := by
          rw [List.getD_eq_getElem kept 0 hi]
          exact List.getElem_mem hi
        rw [hkept] at hmem
        unfold keptIndices at hmem
        have := (List.mem_filter.mp hmem).2
        simpa using this
      have hzero : ((List.range df'.rowCount).filter
          (fun i => voidMask df' ex i)).length = 0 := by
        rw [List.length_eq_zero, List.filter_eq_nil_iff]
        intro a ha
        simp [hmask a (List.mem_range.mp ha)]
      unfold applyVoidFiltering
      simp only [he, Bool.not_true, Bool.false_eq_true, if_false, isEmpty_false_of_ne hz, hx',
        isEmpty_false_of_ne hx, hzero, Nat.lt_irrefl, if_false]
    · have hfirst : applyVoidFiltering df cfg = df := by
        unfold applyVoidFiltering
        simp only [he, Bool.not_true, if_false, isEmpty_false_of_ne hz,
          isEmpty_false_of_ne hx, hv, if_false]
        simp
      rw [hfirst, hfirst]

/-- Claim C5: the void filter returns the table unchanged when disabled,
when no zero-columns are configured, or when none exists in the table;
otherwise it removes exactly the rows on which every existing zero-column
coerces to numeric 0 (parse-as-number-else-0), keeping surviving rows in
order and columns identical. -/
theorem void_filter_spec (df : Table) (cfg : MappingConfig) (hwf : df.wf) :
    ((cfg.void.enabled = false ∨ cfg.void.zero_columns = [] ∨ existingCols df cfg = []) →
      applyVoidFiltering df cfg = df) ∧
    (cfg.void.enabled = true → existingCols df cfg ≠ [] →
      applyVoidFiltering df cfg =
        ⟨df.cols.map (fun p => (p.1,
          (keptIndices df (existingCols df cfg)).map (fun j => p.2.getD j PyObj.none)))⟩) :=
  ⟨applyVoidFiltering_of_identity df cfg,
   fun he hx => applyVoidFiltering_of_filtering df cfg hwf he hx⟩

/-- Witness for C5: on columns A,B with rows (0,0),(0,1),(1,0) and both
columns configured, exactly the first row is removed. -/
theorem void_filter_spec_witness :
    tableVoid.wf ∧ cfgVoid.void.enabled = true ∧ existingCols tableVoid cfgVoid ≠ [] ∧
    applyVoidFiltering tableVoid cfgVoid =
      ⟨[("A", [PyObj.int 0, PyObj.int 1]), ("B", [PyObj.int 1, PyObj.int 0])]⟩ := by
  refine ⟨by decide, rfl, by decide, ?_⟩
  have h := (void_filter_spec tableVoid cfgVoid (by decide)).2 rfl (by decide)
  rw [h]
  rfl

/-- Claim C6: applying the void filter twice with the same configuration
equals applying it once. -/
theorem void_filter_idempotent (df : Table) (cfg : MappingConfig) :
    applyVoidFiltering (applyVoidFiltering df cfg) cfg = applyVoidFiltering df cfg :=
  applyVoidFiltering_idem df cfg

/- ## Column-mapper lemmas -/

theorem dictInsert_map_fst (od : List (String × List PyObj)) (k : String) (v : List PyObj) :
    (dictInsert od k v).map Prod.fst =
      if (od.map Prod.fst).contains k then od.map Prod.fst else od.map Prod.fst ++ [k] := by
  unfold dictInsert
  by_cases hc : (od.map Prod.fst).contains k
  · rw [if_pos hc, if_pos hc, List.map_map]
    apply List.map_congr_left
    intro p _
    simp only [Function.comp_apply]
    by_cases hk : p.1 = k
    · simp [hk]
    · simp [hk]
  · rw [if_neg hc, if_neg hc, List.map_append]
    rfl

theorem mapStep_names (ft : Table) (od : OutputData) (cc : ColumnRule) :
    (mapStep ft od cc).map Prod.fst = nameStep (od.map Prod.fst) cc := by
  unfold mapStep nameStep
  cases hb : (pyStripStr cc.name == "") with
  | true => simp [hb]
  | false =>
    simp only [hb, Bool.false_eq_true, if_false]
    rw [dictInsert_map_fst]

theorem foldl_mapStep_names (ft : Table) (rules : List ColumnRule) :
    ∀ od : OutputData, (rules.foldl (mapStep ft) od).map Prod.fst =
      rules.foldl nameStep (od.map Prod.fst) := by
  induction rules with
  | nil => intro od; rfl
  | cons cc rest ih =>
    intro od
    simp only [List.foldl_cons]
    rw [ih, mapStep_names]

theorem buildOutputData_names (ft : Table) (rules : List ColumnRule) :
    (buildOutputData ft rules).map Prod.fst = outputNames rules := by
  unfold buildOutputData outputNames
  exact foldl_mapStep_names ft rules []

theorem nameStep_nodup {ns : List String} (cc : ColumnRule) (h : ns.Nodup) :
    (nameStep ns cc).Nodup := by
  unfold nameStep
  cases hb : (pyStripStr cc.name == "") with
  | true => simpa [hb] using h
  | false =>
    simp only [hb, Bool.false_eq_true, if_false]
    cases hc : ns.contains (pyStripStr cc.name) with
    | true => simpa [hc] using h
    | false =>
      simp only [hc, Bool.false_eq_true, if_false]
      rw [List.nodup_append]
      refine ⟨h, List.nodup_singleton _, ?_⟩
      intro x hx hx'
      rw [List.mem_singleton] at hx'
      subst hx'
      have hcon : ns.contains (pyStripStr cc.name) = true :=
        (contains_eq_true_iff ns _).mpr hx
      rw [hc] at hcon
      exact Bool.false_ne_true hcon

theorem foldl_nameStep_nodup (rules : List ColumnRule) :
    ∀ ns : List String, ns.Nodup → (rules.foldl nameStep ns).Nodup := by
  induction rules with
  | nil => intro ns h; exact h
  | cons cc rest ih =>
    intro ns h
    simp only [List.foldl_cons]
    exact ih _ (nameStep_nodup cc h)

theorem outputNames_nodup (rules : List ColumnRule) : (outputNames rules).Nodup :=
  foldl_nameStep_nodup rules [] List.nodup_nil

/-- Claim C7: with a non-empty `column_order`, the output columns are the
listed names that exist (in listed order) followed by the remaining output
columns in their original order. -/
theorem column_order_spec (t : Table) (cfg : MappingConfig) (h : cfg.column_order ≠ []) :
    (applyMapping t cfg).colNames =
      cfg.column_order.filter (fun c => (outputNames cfg.output_columns).contains c) ++
      (outputNames cfg.output_columns).filter (fun c =>
        !(cfg.column_order.filter (fun c2 =>
          (outputNames cfg.output_columns).contains c2)).contains c) := by
  unfold applyMapping
  simp only [isEmpty_false_of_ne h, Bool.false_eq_true, if_false]
  simp only [Table.colNames, List.map_map]
  rw [show (Prod.fst ∘ fun n => (n,
      ((List.find? (fun p => p.1 == n) (buildOutputData (applyVoidFiltering t cfg)
        cfg.output_columns)).map Prod.snd).getD [])) = id from rfl, List.map_id]
  simp only [buildOutputData_names]

/-- Witness for C7: `output_columns=[A,B,C]` with `column_order=[C,A]` gives
columns `[C, A, B]`. -/
theorem column_order_spec_witness :
    cfgOrder.column_order ≠ [] ∧ (applyMapping tableX cfgOrder).colNames = ["C", "A", "B"] := by
  refine ⟨by decide, ?_⟩
  rw [column_order_spec tableX cfgOrder (by decide)]
  rfl

theorem find?_dictInsert_self (od : OutputData) (k : String) (v : List PyObj) :
    ((dictInsert od k v).find? (fun p => p.1 == k)).map Prod.snd = Option.some v := by
  unfold dictInsert
  by_cases hc : (od.map Prod.fst).contains k
  · rw [if_pos hc, List.find?_map]
    have hpred : ((fun p : String × List PyObj => p.1 == k) ∘
        (fun p => if p.1 == k then (k, v) else p)) =
        (fun p : String × List PyObj => p.1 == k) := by
      funext p
      simp only [Function.comp_apply]
      by_cases hk : p.1 = k
      · simp [hk]
      · simp [hk]
    rw [hpred]
    have hex : ∃ p ∈ od, (p.1 == k) = true := by
      rw [contains_eq_true_iff] at hc
      rcases List.mem_map.mp hc with ⟨p, hp, hfst⟩
      exact ⟨p, hp, by simp [hfst]⟩
    rcases hf : od.find? (fun p => p.1 == k) with _ | q
    · have hissome := List.find?_isSome.mpr hex
      rw [hf] at hissome
      simp at hissome
    · have hpk : (q.1 == k) = true := by
        have hq := List.find?_some hf
        simpa using hq
      rw [hf]
      simp only [Option.map_some']
      rw [if_pos hpk]
  · rw [if_neg hc, List.find?_append]
    have hnone : od.find? (fun p => p.1 == k) = Option.none := by
      rw [List.find?_eq_none]
      intro p hp hpk
      apply hc
      rw [contains_eq_true_iff]
      exact List.mem_map.mpr ⟨p, hp, eq_of_beq hpk⟩
    rw [hnone]
    simp

theorem find?_dictInsert_ne (od : OutputData) (k k' : String) (v : List PyObj)
    (h : k' ≠ k) :
    ((dictInsert od k' v).find? (fun p => p.1 == k)).map Prod.snd =
      (od.find? (fun p => p.1 == k)).map Prod.snd := by
  unfold dictInsert
  by_cases hc : (od.map Prod.fst).contains k'
  · rw [if_pos hc, List.find?_map]
    have hpred : ((fun p : String × List PyObj => p.1 == k) ∘
        (fun p => if p.1 == k' then (k', v) else p)) =
        (fun p : String × List PyObj => p.1 == k) := by
      funext p
      simp only [Function.comp_apply]
      by_cases hk : p.1 = k'
      · simp [hk, h]
      · simp [hk]
    rw [hpred]
    rcases hf : od.find? (fun p => p.1 == k) with _ | q
    · rw [hf]
      rfl
    · have hpk : (q.1 == k) = true := by
        have hq := List.find?_some hf
        simpa using hq
      have hpk' : q.1 ≠ k' := by
        rw [eq_of_beq hpk]
        exact fun he => h he.symm
      rw [hf]
      simp [hpk']
  · rw [if_neg hc, List.find?_append]
    have hsingle : ([(k', v)].find? (fun p => p.1 == k)) = Option.none := by
      simp [h]
    rw [hsingle]
    simp

theorem foldl_mapStep_preserve (ft : Table) (post : List ColumnRule) (n : String) :
    ∀ od : OutputData, (∀ r ∈ post, pyStripStr r.name ≠ n) →
      ((post.foldl (mapStep ft) od).find? (fun p => p.1 == n)).map Prod.snd =
      (od.find? (fun p => p.1 == n)).map Prod.snd := by
  induction post with
  | nil => intro od _; rfl
  | cons r rest ih =>
    intro od h
    simp only [List.foldl_cons]
    rw [ih _ (fun r' hr' => h r' (List.mem_cons_of_mem r hr'))]
    unfold mapStep
    cases hb : (pyStripStr r.name == "") with
    | true => simp [hb]
    | false =>
      simp only [hb, Bool.false_eq_true, if_false]
      exact find?_dictInsert_ne od n (pyStripStr r.name) _ (h r (List.mem_cons_self r rest))

/-- Claim C10 (amended): validation accepts duplicate non-blank rule names;
for every table and config whose `column_order` has no duplicates, the
output table's column names are unique, and the column stored under a name
is the one computed for the last rule bearing that name (for configs
without a `column_order`, against the output state at that rule's
position). -/
theorem duplicate_names_spec :
    validateConfig jsonDupNames = Except.ok () ∧
    (∀ (t : Table) (cfg : MappingConfig), cfg.column_order.Nodup →
      ((applyMapping t cfg).colNames).Nodup) ∧
    (∀ (t : Table) (cfg : MappingConfig) (pre post : List ColumnRule) (r : ColumnRule),
      cfg.column_order = [] →
      cfg.output_columns = pre ++ r :: post →
      pyStripStr r.name ≠ "" →
      (∀ r' ∈ post, pyStripStr r'.name ≠ pyStripStr r.name) →
      ((applyMapping t cfg).cols.find? (fun p => p.1 == pyStripStr r.name)).map Prod.snd =
        Option.some (computeColumn r (applyVoidFiltering t cfg)
          (buildOutputData (applyVoidFiltering t cfg) pre))) := by
  refine ⟨rfl, ?_, ?_⟩
  · intro t cfg hord
    unfold applyMapping
    cases hb : cfg.column_order.isEmpty with
    | true =>
      simp only [hb, if_true]
      show ((buildOutputData (applyVoidFiltering t cfg) cfg.output_columns).map Prod.fst).Nodup
      rw [buildOutputData_names]
      exact outputNames_nodup _
    | false =>
      simp only [hb, Bool.false_eq_true, if_false]
      simp only [Table.colNames, List.map_map]
      rw [show (Prod.fst ∘ fun n => (n,
          ((List.find? (fun p => p.1 == n) (buildOutputData (applyVoidFiltering t cfg)
            cfg.output_columns)).map Prod.snd).getD [])) = id from rfl, List.map_id]
      rw [List.nodup_append]
      refine ⟨hord.filter _, List.Nodup.filter _ ?_, ?_⟩
      · rw [buildOutputData_names]
        exact outputNames_nodup _
      · intro x hxv hxr
        have hpred := (List.mem_filter.mp hxr).2
        have hcm : (cfg.column_order.filter (fun c =>
            ((buildOutputData (applyVoidFiltering t cfg) cfg.output_columns).map
              Prod.fst).contains c)).contains x = true :=
          (contains_eq_true_iff _ _).mpr hxv
        rw [hcm] at hpred
        simp at hpred
  · intro t cfg pre post r hord hcols hname hpost
    unfold applyMapping
    have hb : cfg.column_order.isEmpty = true := by simp [hord]
    simp only [hb, if_true]
    show ((buildOutputData (applyVoidFiltering t cfg)
      cfg.output_columns).find? (fun p => p.1 == pyStripStr r.name)).map Prod.snd = _
    rw [hcols]
    unfold buildOutputData
    rw [List.foldl_append, List.foldl_cons]
    rw [foldl_mapStep_preserve (applyVoidFiltering t cfg) post (pyStripStr r.name) _ hpost]
    unfold mapStep
    have hbn : (pyStripStr r.name == "") = false := by
      cases hbeq : (pyStripStr r.name == "") with
      | true => exact absurd (eq_of_beq hbeq) hname
      | false => rfl
    simp only [hbn, Bool.false_eq_true, if_false]
    exact find?_dictInsert_self _ _ _

/-- Counterexample for C10 as stated: with duplicate rule names and a
duplicated `column_order` entry, the ordering step duplicates the output
column, so the output names are not unique (while validation accepts the
config). -/
theorem duplicate_names_counterexample :
    (applyMapping tableX cfgDupOrder).colNames = ["A", "A"] ∧
    ¬ ((applyMapping tableX cfgDupOrder).colNames).Nodup ∧
    validateConfig jsonDupNames = Except.ok () := by
  refine ⟨rfl, ?_, rfl⟩
  intro h
  rw [show (applyMapping tableX cfgDupOrder).colNames = ["A", "A"] from rfl] at h
  simp at h

/-- Witness for C10: two rules named A (blank column, then `=1 + 1`); the
output column A carries the last rule's values. -/
theorem duplicate_names_witness :
    cfgDupRules.column_order = [] ∧ pyStripStr (ColumnRule.name { name := "A", source_column := "=1 + 1" }) ≠ "" ∧
    ((applyMapping tableX cfgDupRules).cols.find? (fun p => p.1 == "A")).map Prod.snd =
      Option.some [PyObj.int 2] := by
  refine ⟨rfl, by decide, ?_⟩
  have h := duplicate_names_spec.2.2 tableX cfgDupRules
    [{ name := "A", source_column := "" }] [] { name := "A", source_column := "=1 + 1" }
    rfl rfl (by decide) (by intro r' hr'; simp at hr')
  exact h.trans (by decide)

/- ## Header-locator lemmas -/

theorem findHeaderAux_eq (g : List (List PyObj)) :
    ∀ idx : Nat, findHeaderAux g idx =
      (g.take (21 - idx)).findIdx? (fun r => 3 ≤ rowMatches r) idx := by
  induction g with
  | nil => intro idx; simp [findHeaderAux]
  | cons r rs ih =>
    intro idx
    by_cases h20 : 20 < idx
    · have h0 : 21 - idx = 0 := by omega
      simp [findHeaderAux, h20, h0]
    · have h21 : 21 - idx = (20 - idx) + 1 := by omega
      have h21' : 21 - (idx + 1) = 20 - idx := by omega
      rw [h21, List.take_succ_cons, List.findIdx?_cons]
      by_cases hm : 3 ≤ rowMatches r
      · simp [findHeaderAux, h20, hm]
      · simp only [findHeaderAux, h20, hm, if_false, decide_eq_true_eq, ite_false]
        rw [ih (idx + 1), h21']

/-- Claim C9 (amended): the header locator scans the first 21 rows (indices
0 through 20) and returns the index of the first scanned row whose joined
lower-cased non-missing cell text contains at least 3 of the fixed keywords;
none when no scanned row qualifies. -/
theorem header_locator_spec (g : List (List PyObj)) :
    findHeaderRow g = headerScanSpec g := by
  unfold findHeaderRow headerScanSpec
  rw [findHeaderAux_eq g 0]

/-- Counterexample for C9 as stated: none of the first 20 rows (the claimed
scan window) qualifies, yet the locator returns index 20 — the code scans 21
rows, not 20. -/
theorem header_locator_counterexample :
    findHeaderRow grid21 = Option.some 20 ∧
    ((List.range 20).all (fun i => rowMatches (grid21.getD i []) < 3)) = true := by
  constructor
  · rfl
  · decide

/-- Claim C8: validation rejects an empty `output_columns`, a rule missing
`name`, alignment `diagonal`, and a non-positive width, each with a message
naming the offending field and column index (shown verbatim; note the
non-positive width is reported as `width must be a number` because the
code's inner `width must be positive` error is swallowed by its own
`except` clause). -/
theorem config_validation_rejects :
    validateConfig jsonEmptyCols =
      Except.error ("Invalid configuration: " ++ apos ++ "output_columns" ++ apos ++
        " cannot be empty") ∧
    validateConfig jsonNoName =
      Except.error ("Invalid configuration: Column 1 missing required " ++ apos ++ "name" ++
        apos ++ " field") ∧
    validateConfig jsonDiagonal =
      Except.error ("Invalid configuration: Column 1 invalid alignment: diagonal") ∧
    validateConfig jsonNegWidth =
      Except.error ("Invalid configuration: Column 1 width must be a number") :=
  ⟨rfl, by with_unfolding_all rfl, by with_unfolding_all rfl, by with_unfolding_all rfl⟩

/- ## Formula-evaluator lemmas -/

theorem getD_replicate_lt {α : Type} (a d : α) {n i : Nat} (h : i < n) :
    (List.replicate n a).getD i d = a := by
  rw [List.getD_eq_getElem _ _ (by simpa using h)]
  exact List.getElem_replicate _ _

/-- `=A + B` never resolves its single-letter references (the unquoted-name
regex needs at least two characters), so the unsubstituted expression fails
the safety check and every row degrades to int 0. -/
theorem rowResult_AB (row : List (String × PyObj)) (od : OutputData) (i : Nat) :
    rowResult (formulaBody ("=A + B")) row od i = PyObj.int 0 := rfl

theorem evaluateFormula_AB (t : Table) (od : OutputData) :
    evaluateFormula ("=A + B") t od = List.replicate t.rowCount (PyObj.int 0) := by
  unfold evaluateFormula
  rw [show (fun i => rowResult (formulaBody ("=A + B")) (t.row i) od i) =
      (fun _ => PyObj.int 0) from funext (fun i => rowResult_AB (t.row i) od i)]
  rw [List.map_const', List.length_range]

theorem findColumnValue_eq_none (tok : List Char) (row : List (String × PyObj))
    (h : ∀ p ∈ row, tokenMatches tok p.1 = false) :
    findColumnValue tok row = Option.none := by
  have hcomp : ∀ p ∈ row, ¬ p.1.toList = tok ∧ ¬ toLowerList p.1.toList = toLowerList tok ∧
      hasSub (toLowerList tok) (toLowerList p.1.toList) = false ∧
      hasSub (toLowerList p.1.toList) (toLowerList tok) = false := by
    intro p hp
    have hm := h p hp
    unfold tokenMatches at hm
    have hm' := by simpa [Bool.or_eq_false_iff] using hm
    exact ⟨hm'.1.1.1, hm'.1.1.2, hm'.1.2, hm'.2⟩
  unfold findColumnValue
  rw [show row.find? (fun p => p.1.toList == tok) = Option.none by
    rw [List.find?_eq_none]
    intro p hp hc
    exact (hcomp p hp).1 (by simpa using hc)]
  rw [show row.find? (fun p => toLowerList p.1.toList == toLowerList tok) = Option.none by
    rw [List.find?_eq_none]
    intro p hp hc
    exact (hcomp p hp).2.1 (by simpa using hc)]
  rw [show row.find? (fun p => hasSub (toLowerList tok) (toLowerList p.1.toList) ||
      hasSub (toLowerList p.1.toList) (toLowerList tok)) = Option.none by
    rw [List.find?_eq_none]
    intro p hp hc
    rcases Bool.or_eq_true_iff.mp hc with hc1 | hc2
    · exact Bool.false_ne_true ((hcomp p hp).2.2.1 ▸ hc1)
    · exact Bool.false_ne_true ((hcomp p hp).2.2.2 ▸ hc2)]

theorem tokenMatches_of_row (t : Table) (tok : List Char) (i : Nat)
    (h : ∀ name ∈ t.colNames, tokenMatches tok name = false) :
    ∀ p ∈ t.row i, tokenMatches tok p.1 = false := by
  intro p hp
  rcases List.mem_map.mp hp with ⟨c, hc, hpc⟩
  have : p.1 = c.1 := by rw [← hpc]
  rw [this]
  exact h c.1 (List.mem_map.mpr ⟨c, hc, rfl⟩)

theorem applyWord_row_congr (row : List (String × PyObj)) (od : OutputData) (idx : Nat)
    (acc word : List Char)
    (h : findColumnValue (pyStrip word) row = findColumnValue (pyStrip word) []) :
    applyWord row od idx acc word = applyWord [] od idx acc word := by
  simp only [applyWord]
  rw [h]

/-- One row of `=Total * 2` when no input column fuzzily matches `Total`:
the token resolves through `output_data` to the already-computed int 0, the
substituted expression is `0 * 2`, and the row evaluates to int 0. -/
theorem rowResult_double (row : List (String × PyObj)) {n i : Nat}
    (h : findColumnValue (pyStrip (("Total").toList)) row = Option.none) (hi : i < n) :
    rowResult (formulaBody ("=Total * 2")) row
      [("Total", List.replicate n (PyObj.int 0))] i = PyObj.int 0 := by
  have hsub : substituteRefs (formulaBody ("=Total * 2")) row
      [("Total", List.replicate n (PyObj.int 0))] i = ("0 * 2").toList := by
    unfold substituteRefs
    rw [show formulaWords (formulaBody ("=Total * 2")) = [("Total").toList] from rfl]
    rw [List.foldl_cons, List.foldl_nil]
    rw [applyWord_row_congr row _ i _ _ (by rw [h]; rfl)]
    simp only [applyWord]
    rw [show findColumnValue (pyStrip (("Total").toList)) [] = Option.none from rfl]
    rw [show reservedWords.contains (toLowerList (pyStrip (("Total").toList))) = false from rfl]
    simp only [Bool.false_eq_true, if_false, Option.map_none']
    rw [show List.find? (fun p => p.1.toList == pyStrip (("Total").toList))
        [("Total", List.replicate n (PyObj.int 0))] =
        Option.some ("Total", List.replicate n (PyObj.int 0)) from
      List.find?_cons_of_pos _ rfl]
    simp only [List.length_replicate, hi, if_true]
    rw [getD_replicate_lt (PyObj.int 0) PyObj.none hi]
    with_unfolding_all rfl
  unfold rowResult
  rw [hsub]
  with_unfolding_all rfl

theorem evaluateFormula_double (t : Table)
    (h : ∀ name ∈ t.colNames, tokenMatches (("Total").toList) name = false) :
    evaluateFormula ("=Total * 2") t [("Total", List.replicate t.rowCount (PyObj.int 0))] =
      List.replicate t.rowCount (PyObj.int 0) := by
  unfold evaluateFormula
  have hcong : ∀ i ∈ List.range t.rowCount,
      rowResult (formulaBody ("=Total * 2")) (t.row i)
        [("Total", List.replicate t.rowCount (PyObj.int 0))] i = (fun _ : Nat => PyObj.int 0) i := by
    intro i hi
    exact rowResult_double (t.row i)
      (findColumnValue_eq_none _ _ (tokenMatches_of_row t _ i h)) (List.mem_range.mp hi)
  rw [List.map_congr_left hcong, List.map_const', List.length_range]

/-- Claim C4 (amended): when no input column name fuzzily matches the token
`Total` (exact, case-insensitive, or substring in either direction), the
rule `Total = "=A + B"` followed by `Double = "=Total * 2"` produces a
`Double` column equal to double the `Total` column at every row — both all
zeros, since the single-letter references of `=A + B` are never tokenized
and that row degrades to 0. -/
theorem forward_reference_spec (t : Table)
    (h : ∀ name ∈ t.colNames, tokenMatches (("Total").toList) name = false) :
    applyMapping t cfgForward =
      ⟨[("Total", List.replicate t.rowCount (PyObj.int 0)),
        ("Double", List.replicate t.rowCount (PyObj.int 0))]⟩ ∧
    ((applyMapping t cfgForward).cols.find? (fun p => p.1 == "Double")).map
        (fun p => p.2.map PyObj.qval) =
      ((applyMapping t cfgForward).cols.find? (fun p => p.1 == "Total")).map
        (fun p => p.2.map (fun v => 2 * PyObj.qval v)) := by
  have h1 : buildOutputData t cfgForward.output_columns =
      [("Total", evaluateFormula ("=A + B") t []),
       ("Double", evaluateFormula ("=Total * 2") t
         [("Total", evaluateFormula ("=A + B") t [])])] := rfl
  have hmain : applyMapping t cfgForward =
      ⟨[("Total", List.replicate t.rowCount (PyObj.int 0)),
        ("Double", List.replicate t.rowCount (PyObj.int 0))]⟩ := by
    unfold applyMapping
    rw [show applyVoidFiltering t cfgForward = t from rfl]
    rw [show cfgForward.column_order.isEmpty = true from rfl, if_pos rfl]
    rw [h1, evaluateFormula_AB t [], evaluateFormula_double t h]
  refine ⟨hmain, ?_⟩
  rw [hmain]
  rw [show (Table.mk [("Total", List.replicate t.rowCount (PyObj.int 0)),
      ("Double", List.replicate t.rowCount (PyObj.int 0))]).cols =
      [("Total", List.replicate t.rowCount (PyObj.int 0)),
       ("Double", List.replicate t.rowCount (PyObj.int 0))] from rfl]
  rw [List.find?_cons_of_neg _ (by simp), List.find?_cons_of_pos _ rfl]
  rw [show List.find? (fun p => p.1 == "Total")
      [("Total", List.replicate t.rowCount (PyObj.int 0)),
       ("Double", List.replicate t.rowCount (PyObj.int 0))] =
      Option.some ("Total", List.replicate t.rowCount (PyObj.int 0)) from
    List.find?_cons_of_pos _ rfl]
  simp [List.map_replicate, PyObj.qval]

/-- Counterexample for C4 as stated: on input columns A=[1], B=[3], the
token `Total` fuzzily matches column A (the substring test `"a" in "total"`
succeeds), so the later column is `A * 2 = 2.0` while `Total` is 0 — not
double the Total column. -/
theorem forward_reference_counterexample :
    applyMapping (⟨[("A", [PyObj.int 1]), ("B", [PyObj.int 3])]⟩ : Table) cfgForward =
      ⟨[("Total", [PyObj.int 0]), ("Double", [PyObj.float 2])]⟩ ∧
    ¬ ((PyObj.float 2).qval = 2 * (PyObj.int 0).qval) := by
  constructor
  · with_unfolding_all rfl
  · norm_num [PyObj.qval]

/-- Witness for C4: a table whose single column X does not fuzzily match
`Total`; both output columns are all zeros and the doubling relation holds. -/
theorem forward_reference_witness :
    (∀ name ∈ tableX.colNames, tokenMatches (("Total").toList) name = false) ∧
    applyMapping tableX cfgForward =
      ⟨[("Total", [PyObj.int 0]), ("Double", [PyObj.int 0])]⟩ := by
  refine ⟨by decide, ?_⟩
  rw [(forward_reference_spec tableX (by decide)).1]
  rfl

/-- Claim C1 (amended): `=A + B` evaluates to int 0 on every row of every
table (single-letter references are never tokenized, so the unsubstituted
expression fails the safety check); on the table with columns exactly
A=[1,2], B=[3,4], `=A - B` tokenizes as the single name `A - B`, which
fuzzily matches column A, yielding [1.0, 2.0]. -/
theorem formula_determinism_spec :
    (∀ (t : Table) (od : OutputData),
      evaluateFormula ("=A + B") t od = List.replicate t.rowCount (PyObj.int 0)) ∧
    evaluateFormula ("=A - B") tableAB [] = [PyObj.float 1, PyObj.float 2] := by
  refine ⟨evaluateFormula_AB, ?_⟩
  with_unfolding_all rfl

/-- Counterexample for C1 as stated: on A=[1,2], B=[3,4] the code returns
[0, 0] for `=A + B` (not [4, 6]) and [1.0, 2.0] for `=A - B`
(not [-2, -2]). -/
theorem formula_determinism_counterexample :
    evaluateFormula ("=A + B") tableAB [] = [PyObj.int 0, PyObj.int 0] ∧
    (evaluateFormula ("=A + B") tableAB []).map PyObj.qval ≠ [4, 6] ∧
    (evaluateFormula ("=A - B") tableAB []).map PyObj.qval = [1, 2] ∧
    (evaluateFormula ("=A - B") tableAB []).map PyObj.qval ≠ [-2, -2] := by
  have h1 : (evaluateFormula ("=A + B") tableAB []).map PyObj.qval = [0, 0] := by
    with_unfolding_all rfl
  have h2 : (evaluateFormula ("=A - B") tableAB []).map PyObj.qval = [1, 2] := by
    with_unfolding_all rfl
  refine ⟨by with_unfolding_all rfl, ?_, h2, ?_⟩
  · rw [h1]
    decide
  · rw [h2]
    decide

theorem allowedCh_amend (c : Char) (h : allowedCh c = true) : amendAllowedCh c = true := by
  unfold allowedCh at h
  unfold amendAllowedCh claimAllowedCh isSpaceCh
  simp only [Bool.or_eq_true] at h ⊢
  tauto

/-- An expression unsafe for the amended grammar is unsafe for the code's
check (the code's allowed characters are a subset of the amended grammar's,
and the banned-substring test is identical). -/
theorem unsafe_of_not_amendSafe (e : List Char) (h : amendSafe e = false) :
    isSafeExpr e = false := by
  cases hs : isSafeExpr e with
  | false => rfl
  | true =>
    exfalso
    unfold isSafeExpr at hs
    unfold amendSafe at h
    rw [Bool.and_eq_true] at hs
    obtain ⟨hall, hban⟩ := hs
    have hall' : e.all amendAllowedCh = true := by
      rw [List.all_eq_true] at hall ⊢
      exact fun c hc => allowedCh_amend c (hall c hc)
    rw [hall', hban] at h
    simp at h

/-- Claim C2 (amended): when the fully substituted expression violates the
grammar "digits, `+ - * / ( ) . _` and whitespace, no banned substrings"
and is still in violation after stripping double quotes, the row's result is
int 0 and the column still has one entry per row. -/
theorem formula_safety_spec (f : String) (t : Table) (od : OutputData) (i : Nat)
    (hi : i < t.rowCount)
    (h1 : amendSafe (substituteRefs (formulaBody f) (t.row i) od i) = false)
    (h2 : amendSafe ((substituteRefs (formulaBody f) (t.row i) od i).filter
      (fun c => c ≠ '"')) = false) :
    (evaluateFormula f t od).getD i (PyObj.int 1) = PyObj.int 0 ∧
    (evaluateFormula f t od).length = t.rowCount := by
  refine ⟨?_, length_evaluateFormula f t od⟩
  rw [getD_evaluateFormula f t od hi]
  simp only [rowResult]
  rw [unsafe_of_not_amendSafe _ h1, unsafe_of_not_amendSafe _ h2]
  simp

/-- Witness for C2: `=x@y` substitutes to `x@y` (no tokens resolve), which
violates the grammar and cannot be repaired; the row yields 0. -/
theorem formula_safety_witness :
    0 < tableC.rowCount ∧
    amendSafe (substituteRefs (formulaBody ("=x@y")) (tableC.row 0) [] 0) = false ∧
    amendSafe ((substituteRefs (formulaBody ("=x@y")) (tableC.row 0) [] 0).filter
      (fun c => c ≠ '"')) = false ∧
    (evaluateFormula ("=x@y") tableC []).getD 0 (PyObj.int 1) = PyObj.int 0 := by
  refine ⟨by decide, by with_unfolding_all rfl, by with_unfolding_all rfl, ?_⟩
  exact (formula_safety_spec ("=x@y") tableC [] 0 (by decide)
    (by with_unfolding_all rfl) (by with_unfolding_all rfl)).1

/-- Counterexample for C2 as stated: `=1_2` substitutes to `1_2`, which
contains a character (underscore) outside the claimed grammar and is
unchanged by the quote-stripping repair, yet the code evaluates it
(Python numeric-literal underscores) to 12, not 0. -/
theorem formula_safety_counterexample :
    claimSafe (substituteRefs (formulaBody ("=1_2")) (tableC.row 0) [] 0) = false ∧
    claimSafe ((substituteRefs (formulaBody ("=1_2")) (tableC.row 0) [] 0).filter
      (fun c => c ≠ '"')) = false ∧
    evaluateFormula ("=1_2") tableC [] = [PyObj.int 12] ∧
    PyObj.int 12 ≠ PyObj.int 0 := by
  refine ⟨by with_unfolding_all rfl, by with_unfolding_all rfl,
    by with_unfolding_all rfl, by decide⟩

theorem rowDegrades_zero (body : List Char) (row : List (String × PyObj)) (od : OutputData)
    (idx : Nat) (h : rowDegrades body row od idx) :
    rowResult body row od idx = PyObj.int 0 := by
  simp only [rowDegrades] at h
  simp only [rowResult]
  rcases h with ⟨h1, h2⟩ | ⟨h1, h2⟩ | ⟨h1, h2, h3⟩
  · rw [h1, h2]
    simp
  · rw [h1, h2]
    simp
  · rw [h1, h2, h3]
    simp

/-- Claim C3 (amended): the formula column has exactly one value per input
row, each row computed independently; a row whose substituted expression is
unsafe or whose evaluation raises (division by zero, malformed residual
syntax) degrades to int 0 without affecting the other rows.  The per-row
value need not be numeric: a safe expression can evaluate to a non-number
(e.g. `=()` yields Python's empty tuple on every row). -/
theorem formula_column_total (f : String) (t : Table) (od : OutputData) :
    (evaluateFormula f t od).length = t.rowCount ∧
    ∀ i, i < t.rowCount →
      (evaluateFormula f t od).getD i (PyObj.int 1) =
        rowResult (formulaBody f) (t.row i) od i ∧
      (rowDegrades (formulaBody f) (t.row i) od i →
        rowResult (formulaBody f) (t.row i) od i = PyObj.int 0) :=
  ⟨length_evaluateFormula f t od, fun i hi =>
    ⟨getD_evaluateFormula f t od hi _, rowDegrades_zero _ _ _ _⟩⟩

/-- Counterexample for C3 as stated: the formula `=()` passes the safety
check (only parentheses) and Python evaluates it to the empty tuple, so the
program's column holds one non-numeric value per row — not "one numeric
value per row". -/
theorem formula_column_counterexample :
    evaluateFormula ("=()") tableC [] = [PyObj.tuple0] ∧
    PyObj.isNum PyObj.tuple0 = false ∧
    isSafeExpr (substituteRefs (formulaBody ("=()")) (tableC.row 0) [] 0) = true ∧
    evalExpr (substituteRefs (formulaBody ("=()")) (tableC.row 0) [] 0) =
      Option.some PyObj.tuple0 := by
  refine ⟨by with_unfolding_all rfl, rfl, by with_unfolding_all rfl,
    by with_unfolding_all rfl⟩

/-- Witness for C3: `=1/0` divides by zero on the only row; the column has
full length and that row degrades to int 0. -/
theorem formula_column_total_witness :
    (evaluateFormula ("=1/0") tableC []).length = tableC.rowCount ∧
    (evaluateFormula ("=1/0") tableC []).getD 0 (PyObj.int 1) = PyObj.int 0 := by
  have h := (formula_column_total ("=1/0") tableC []).2 0 (by decide)
  have hdeg : rowDegrades (formulaBody ("=1/0")) (tableC.row 0) [] 0 := by
    simp only [rowDegrades]
    right
    left
    exact ⟨by with_unfolding_all rfl, by with_unfolding_all rfl⟩
  exact ⟨(formula_column_total ("=1/0") tableC []).1, h.1.trans (h.2 hdeg)⟩
